import Mathlib

/-!
Verification of the beach-volleyball load-management dashboard.

The development shallowly embeds the Python sources:
  * `process_data.py` — load-record normalizer (`load_and_combine_data` groupby
    aggregation, `clean_dataframe`) and the recommendation engine
    (`calculate_training_recommendation`);
  * `process_wellness.py` — wellness windowing/baselines
    (`process_wellness_data`), deviation colouring (`calculate_color_code`) and
    the display grid cell lookup (`create_wellness_display`);
  * `app.py` — the pipeline order (aggregate, then clean) and column selection.

Numeric columns are modelled by `ℚ` (exact real-valued semantics of the
float arithmetic); missing values (`NaN` / `None`) by `Option`.
-/

/-! ## Recommendation engine (`process_data.py`, `calculate_training_recommendation`) -/

/-- One row of the cleaned per-athlete dataframe, restricted to the fields the
recommendation engine reads: `Acute Training Load`, `HR Min (+80%)`,
`Movement load` and `ACWR` (absent = NaN). -/
structure AthleteRow where
  acute : ℚ
  hrMin : ℚ
  movement : ℚ
  acwr : Option ℚ
deriving DecidableEq

/-- The dict of intermediate values returned alongside the final label. -/
structure RecDetails where
  base_rec : String
  acwr : Option ℚ
  adjustment_score : ℚ
  acute_ratio : ℚ
  hr_ratio : ℚ
  movement_ratio : ℚ
deriving DecidableEq

/-- `pandas.Series.mean` over a column: sum divided by length. -/
def listMean (xs : List ℚ) : ℚ := xs.sum / (xs.length : ℚ)

/-- Embedding of `calculate_training_recommendation(athlete_data, recent_data)`:
historical means over three columns, base label from the most recent ACWR,
three recent/mean ratios, weighted adjustment score, and the override of a
"same" base label by the adjustment score. -/
def calculate_training_recommendation (athlete_data : List AthleteRow)
    (recent_data : AthleteRow) : String × RecDetails :=
  let meanAcute := listMean (athlete_data.map AthleteRow.acute)
  let meanHr := listMean (athlete_data.map AthleteRow.hrMin)
  let meanMovement := listMean (athlete_data.map AthleteRow.movement)
  let base_rec :=
    match recent_data.acwr with
    | none => "same"
    | some a => if a < 1 then "more" else if a > 1.3 then "less" else "same"
  let acute_load_ratio := recent_data.acute / meanAcute
  let hr_min_ratio := recent_data.hrMin / meanHr
  let movement_ratio := recent_data.movement / meanMovement
  let adjustment_score :=
    0.4 * acute_load_ratio + 0.3 * hr_min_ratio + 0.3 * movement_ratio
  let final_rec :=
    if base_rec = "same" then
      if adjustment_score < 0.8 then "more"
      else if adjustment_score > 1.2 then "less"
      else "same"
    else base_rec
  (final_rec,
    { base_rec := base_rec
      acwr := recent_data.acwr
      adjustment_score := adjustment_score
      acute_ratio := acute_load_ratio
      hr_ratio := hr_min_ratio
      movement_ratio := movement_ratio })

/-- The final label is the base label, overridden only when the base label is
"same": then an adjustment score below 0.8 yields "more" and one above 1.2
yields "less".  Holds by unfolding the definition. -/
lemma calc_fst_eq (athlete_data : List AthleteRow) (recent_data : AthleteRow) :
    (calculate_training_recommendation athlete_data recent_data).1 =
      if (calculate_training_recommendation athlete_data recent_data).2.base_rec = "same" then
        if (calculate_training_recommendation athlete_data recent_data).2.adjustment_score
            < 0.8 then "more"
        else if (calculate_training_recommendation athlete_data
            recent_data).2.adjustment_score > 1.2 then "less"
        else "same"
      else (calculate_training_recommendation athlete_data recent_data).2.base_rec := rfl

/-- The base label of the returned details is one of the three lowercase
strings produced by the ACWR case split. -/
lemma calc_base_cases (athlete_data : List AthleteRow) (recent_data : AthleteRow) :
    (calculate_training_recommendation athlete_data recent_data).2.base_rec = "more" ∨
    (calculate_training_recommendation athlete_data recent_data).2.base_rec = "same" ∨
    (calculate_training_recommendation athlete_data recent_data).2.base_rec = "less" := by
  cases hx : recent_data.acwr with
  | none => simp [calculate_training_recommendation, hx]
  | some a =>
    simp only [calculate_training_recommendation, hx]
    split_ifs <;> simp

/-- C1: the base label is determined solely by the most recent ACWR value:
absent ACWR gives "same", ACWR below 1.0 gives "more", ACWR above 1.3 gives
"less", and ACWR in the closed interval from 1.0 to 1.3 gives "same". -/
theorem base_label_from_acwr (athlete_data : List AthleteRow) (recent_data : AthleteRow) :
    (recent_data.acwr = none →
      (calculate_training_recommendation athlete_data recent_data).2.base_rec = "same") ∧
    (∀ x : ℚ, recent_data.acwr = some x →
      (x < 1 →
        (calculate_training_recommendation athlete_data recent_data).2.base_rec = "more") ∧
      (x > 1.3 →
        (calculate_training_recommendation athlete_data recent_data).2.base_rec = "less") ∧
      (1 ≤ x → x ≤ 1.3 →
        (calculate_training_recommendation athlete_data recent_data).2.base_rec = "same")) := by
  constructor
  · intro h
    simp [calculate_training_recommendation, h]
  · intro x hx
    refine ⟨?_, ?_, ?_⟩
    · intro hlt
      simp [calculate_training_recommendation, hx, hlt]
    · intro hgt
      have h1 : ¬ x < 1 := by linarith [hgt]
      simp [calculate_training_recommendation, hx, h1, hgt]
    · intro h1 h2
      have hn1 : ¬ x < 1 := not_lt.mpr h1
      have hn2 : ¬ x > 1.3 := not_lt.mpr h2
      simp [calculate_training_recommendation, hx, hn1, hn2]

/-- C1 witness: with a single history row and ACWR 1/2, the base label
evaluates to "more". -/
theorem base_label_from_acwr_witness :
    (calculate_training_recommendation [⟨10, 10, 10, some (1/2)⟩]
      ⟨10, 10, 10, some (1/2)⟩).2.base_rec = "more" :=
  ((base_label_from_acwr [⟨10, 10, 10, some (1/2)⟩] ⟨10, 10, 10, some (1/2)⟩).2
    (1/2) rfl).1 (by norm_num)

/-- C2: with the adjustment score defined as the 0.4/0.3/0.3-weighted sum of
the three ratios, a "same" base label is overridden to "more" below 0.8 and
to "less" above 1.2, and in every other case the final label equals the base
label. -/
theorem override_law (athlete_data : List AthleteRow) (recent_data : AthleteRow) :
    ((calculate_training_recommendation athlete_data recent_data).2.base_rec = "same" →
      (calculate_training_recommendation athlete_data recent_data).2.adjustment_score < 0.8 →
      (calculate_training_recommendation athlete_data recent_data).1 = "more") ∧
    ((calculate_training_recommendation athlete_data recent_data).2.base_rec = "same" →
      (calculate_training_recommendation athlete_data recent_data).2.adjustment_score > 1.2 →
      (calculate_training_recommendation athlete_data recent_data).1 = "less") ∧
    (¬((calculate_training_recommendation athlete_data recent_data).2.base_rec = "same" ∧
        ((calculate_training_recommendation athlete_data recent_data).2.adjustment_score < 0.8 ∨
         (calculate_training_recommendation athlete_data recent_data).2.adjustment_score > 1.2)) →
      (calculate_training_recommendation athlete_data recent_data).1 =
        (calculate_training_recommendation athlete_data recent_data).2.base_rec) ∧
    (calculate_training_recommendation athlete_data recent_data).2.adjustment_score =
      0.4 * (calculate_training_recommendation athlete_data recent_data).2.acute_ratio +
      0.3 * (calculate_training_recommendation athlete_data recent_data).2.hr_ratio +
      0.3 * (calculate_training_recommendation athlete_data recent_data).2.movement_ratio := by
  refine ⟨?_, ?_, ?_, rfl⟩
  · intro hb hs
    rw [calc_fst_eq, if_pos hb, if_pos hs]
  · intro hb hs
    have h1 : ¬ (calculate_training_recommendation athlete_data
        recent_data).2.adjustment_score < 0.8 := by linarith [hs]
    rw [calc_fst_eq, if_pos hb, if_neg h1, if_pos hs]
  · intro hother
    rw [calc_fst_eq]
    by_cases hb :
      (calculate_training_recommendation athlete_data recent_data).2.base_rec = "same"
    · have h1 : ¬ (calculate_training_recommendation athlete_data
          recent_data).2.adjustment_score < 0.8 := fun hlt => hother ⟨hb, Or.inl hlt⟩
      have h2 : ¬ (calculate_training_recommendation athlete_data
          recent_data).2.adjustment_score > 1.2 := fun hgt => hother ⟨hb, Or.inr hgt⟩
      rw [if_pos hb, if_neg h1, if_neg h2, hb]
    · rw [if_neg hb]

/-- C2 witness: absent ACWR gives base "same", the adjustment score of an
all-zero recent row is 0 (below 0.8), and the final label is "more". -/
theorem override_law_witness :
    (calculate_training_recommendation [⟨10, 10, 10, none⟩, ⟨0, 0, 0, none⟩]
      ⟨0, 0, 0, none⟩).1 = "more" :=
  (override_law [⟨10, 10, 10, none⟩, ⟨0, 0, 0, none⟩] ⟨0, 0, 0, none⟩).1 rfl
    (by norm_num [calculate_training_recommendation, listMean])

/-- C4 counterexample: the function returns the lowercase string "more", which
is not one of the capitalized strings "More", "Same", "Less". -/
theorem label_capitalization_false :
    ¬((calculate_training_recommendation [⟨10, 10, 10, some (1/2)⟩]
        ⟨10, 10, 10, some (1/2)⟩).1 = "More" ∨
      (calculate_training_recommendation [⟨10, 10, 10, some (1/2)⟩]
        ⟨10, 10, 10, some (1/2)⟩).1 = "Same" ∨
      (calculate_training_recommendation [⟨10, 10, 10, some (1/2)⟩]
        ⟨10, 10, 10, some (1/2)⟩).1 = "Less") := by
  have h : (calculate_training_recommendation [⟨10, 10, 10, some (1/2)⟩]
      ⟨10, 10, 10, some (1/2)⟩).1 = "more" := by
    norm_num [calculate_training_recommendation, listMean]
    decide
  rw [h]
  decide

/-- C4 (amended): the returned label is always one of the three lowercase
strings "more", "same", "less", and the returned details carry the input
ACWR, the weighted adjustment score and the three recent/mean ratios. -/
theorem label_set_lowercase (athlete_data : List AthleteRow) (recent_data : AthleteRow) :
    ((calculate_training_recommendation athlete_data recent_data).1 = "more" ∨
     (calculate_training_recommendation athlete_data recent_data).1 = "same" ∨
     (calculate_training_recommendation athlete_data recent_data).1 = "less") ∧
    (calculate_training_recommendation athlete_data recent_data).2.acwr = recent_data.acwr ∧
    (calculate_training_recommendation athlete_data recent_data).2.adjustment_score =
      0.4 * (calculate_training_recommendation athlete_data recent_data).2.acute_ratio +
      0.3 * (calculate_training_recommendation athlete_data recent_data).2.hr_ratio +
      0.3 * (calculate_training_recommendation athlete_data recent_data).2.movement_ratio ∧
    (calculate_training_recommendation athlete_data recent_data).2.acute_ratio =
      recent_data.acute / listMean (athlete_data.map AthleteRow.acute) ∧
    (calculate_training_recommendation athlete_data recent_data).2.hr_ratio =
      recent_data.hrMin / listMean (athlete_data.map AthleteRow.hrMin) ∧
    (calculate_training_recommendation athlete_data recent_data).2.movement_ratio =
      recent_data.movement / listMean (athlete_data.map AthleteRow.movement) := by
  refine ⟨?_, rfl, rfl, rfl, rfl, rfl⟩
  rw [calc_fst_eq]
  rcases calc_base_cases athlete_data recent_data with hb | hb | hb <;> rw [hb] <;>
    split_ifs <;> simp

/-! ## Load-record normalizer (`process_data.py` / `app.py`)

`app.py` concatenates the input sheets, groups by (athlete name, start date)
with sum/last aggregation, and only then calls `clean_dataframe`, which
converts the two duration columns to minutes, derives `HR Min (+80%)` and
drops rows with TRIMP or movement load below 50.  `pandas.groupby` sorts the
group keys, so aggregation also sorts rows by (athlete, date). -/

/-- One raw input row (one athlete-day entry of a FirstBeat sheet).  The two
duration columns hold whatever representation the current dataframe uses —
timedeltas (measured in seconds) on raw input, plain numbers after a first
normalization pass; `pd.to_timedelta` interprets the two differently. -/
structure RawRecord where
  athlete : String
  date : ℤ
  trimp : ℚ
  movement : ℚ
  anaerobic : ℚ
  highIntensity : ℚ
  acute : ℚ
  chronic : ℚ
  acwr : Option ℚ
  trainingStatus : String
deriving DecidableEq

/-- One normalized output row of `clean_dataframe`: durations converted to
minutes and the derived `HR Min (+80%)` column appended. -/
structure CleanRecord where
  athlete : String
  date : ℤ
  trimp : ℚ
  movement : ℚ
  anaerobicMin : ℚ
  highIntensityMin : ℚ
  acute : ℚ
  chronic : ℚ
  acwr : Option ℚ
  trainingStatus : String
  hrMin : ℚ
deriving DecidableEq

/-- Strict lexicographic comparison of strings by code point, written out on
the character lists (the order `sort_values`/`groupby` use on names). -/
def charListLt : List Char → List Char → Bool
  | _, [] => false
  | [], _ :: _ => true
  | a :: as, b :: bs => a < b || (a = b && charListLt as bs)

/-- The groupby key of a row: (athlete name, start date). -/
def recKey (r : RawRecord) : String × ℤ := (r.athlete, r.date)

/-- Non-strict lexicographic order on groupby keys. -/
def keyLE (a b : String × ℤ) : Prop :=
  charListLt a.1.data b.1.data = true ∨ (a.1 = b.1 ∧ a.2 ≤ b.2)

/-- Strict lexicographic order on groupby keys. -/
def keyLT (a b : String × ℤ) : Prop :=
  charListLt a.1.data b.1.data = true ∨ (a.1 = b.1 ∧ a.2 < b.2)

instance : DecidableRel keyLE := fun a b =>
  inferInstanceAs (Decidable (charListLt a.1.data b.1.data = true ∨ (a.1 = b.1 ∧ a.2 ≤ b.2)))

instance : DecidableRel keyLT := fun a b =>
  inferInstanceAs (Decidable (charListLt a.1.data b.1.data = true ∨ (a.1 = b.1 ∧ a.2 < b.2)))

/-- The rows of a dataframe belonging to one groupby key. -/
def groupRows (df : List RawRecord) (k : String × ℤ) : List RawRecord :=
  df.filter (fun r => recKey r = k)

/-- The aggregated row of one groupby key: sum the TRIMP, movement-load and
duration columns, take the last value of the daily summary columns
(`Acute Training Load`, `Chronic Training Load`, `ACWR`, `Training Status`). -/
def combine (k : String × ℤ) (g : List RawRecord) : RawRecord where
  athlete := k.1
  date := k.2
  trimp := (g.map RawRecord.trimp).sum
  movement := (g.map RawRecord.movement).sum
  anaerobic := (g.map RawRecord.anaerobic).sum
  highIntensity := (g.map RawRecord.highIntensity).sum
  acute := (g.map RawRecord.acute).getLastD 0
  chronic := (g.map RawRecord.chronic).getLastD 0
  acwr := (g.map RawRecord.acwr).getLastD none
  trainingStatus := (g.map RawRecord.trainingStatus).getLastD ""

/-- The distinct groupby keys of a dataframe in sorted order (groupby sorts
its keys). -/
def sortedKeys (df : List RawRecord) : List (String × ℤ) :=
  List.insertionSort keyLE (df.map recKey).dedup

/-- Embedding of the `groupby(['Athlete name', 'Start date']).agg(...)` step
shared by `load_and_combine_data` and `app.py`. -/
def aggregate (df : List RawRecord) : List RawRecord :=
  (sortedKeys df).map (fun k => combine k (groupRows df k))

/-- `pd.to_timedelta(x).dt.total_seconds() / 60` on a timedelta-valued column
(seconds to minutes). -/
def toMinutesOfSeconds (x : ℚ) : ℚ := x / 60

/-- `pd.to_timedelta(x).dt.total_seconds() / 60` on a numeric column:
`to_timedelta` reads plain numbers as nanoseconds. -/
def toMinutesOfNumber (x : ℚ) : ℚ := x / 1000000000 / 60

/-- The per-row transformations of `clean_dataframe`: keep the ten source
columns, convert both duration columns to minutes, derive `HR Min (+80%)`. -/
def convertRecord (toMin : ℚ → ℚ) (r : RawRecord) : CleanRecord where
  athlete := r.athlete
  date := r.date
  trimp := r.trimp
  movement := r.movement
  anaerobicMin := toMin r.anaerobic
  highIntensityMin := toMin r.highIntensity
  acute := r.acute
  chronic := r.chronic
  acwr := r.acwr
  trainingStatus := r.trainingStatus
  hrMin := toMin r.anaerobic + toMin r.highIntensity

/-- Embedding of `clean_dataframe`: column selection and conversion per row,
then the outlier filter keeping only rows with TRIMP ≥ 50 and movement
load ≥ 50. -/
def clean_dataframe (toMin : ℚ → ℚ) (df : List RawRecord) : List CleanRecord :=
  (df.map (convertRecord toMin)).filter (fun r => 50 ≤ r.trimp ∧ 50 ≤ r.movement)

/-- The full normalization pipeline of `app.py`: aggregate, then clean. -/
def normalizeData (toMin : ℚ → ℚ) (df : List RawRecord) : List CleanRecord :=
  clean_dataframe toMin (aggregate df)

/-- Feeding an already-normalized row back into the pipeline: the derived
`HR Min (+80%)` column is dropped again (neither the groupby aggregation nor
the column selection keeps it), the minute-valued duration columns stay as
the plain numbers they now are. -/
def cleanToRaw (r : CleanRecord) : RawRecord where
  athlete := r.athlete
  date := r.date
  trimp := r.trimp
  movement := r.movement
  anaerobic := r.anaerobicMin
  highIntensity := r.highIntensityMin
  acute := r.acute
  chronic := r.chronic
  acwr := r.acwr
  trainingStatus := r.trainingStatus

/-- What one pass of re-normalization actually does to an already-normalized
row: every field survives unchanged except the two duration columns and the
derived `HR Min (+80%)`, which get re-interpreted as nanoseconds. -/
def renormalizedRecord (r : CleanRecord) : CleanRecord :=
  convertRecord toMinutesOfNumber (cleanToRaw r)

lemma charListLt_irrefl (l : List Char) : charListLt l l = false := by
  induction l with
  | nil => rfl
  | cons a as ih => simp [charListLt, ih]

lemma keyLT_irrefl (k : String × ℤ) : ¬ keyLT k k := by
  rintro (h | ⟨-, h⟩)
  · rw [charListLt_irrefl] at h
    exact Bool.false_ne_true h
  · exact lt_irrefl _ h

lemma keyLT_ne {a b : String × ℤ} (h : keyLT a b) : a ≠ b := by
  rintro rfl
  exact keyLT_irrefl a h

lemma keyLT_le {a b : String × ℤ} (h : keyLT a b) : keyLE a b := by
  rcases h with h | ⟨he, hlt⟩
  · exact Or.inl h
  · exact Or.inr ⟨he, le_of_lt hlt⟩

/-- A dataframe whose keys are already strictly sorted has itself as its
sorted key list. -/
lemma sortedKeys_of_sorted {df : List RawRecord}
    (h : List.Sorted keyLT (df.map recKey)) : sortedKeys df = df.map recKey := by
  have hnd : (df.map recKey).Nodup := h.imp fun hab => keyLT_ne hab
  have hle : List.Sorted keyLE (df.map recKey) := h.imp fun hab => keyLT_le hab
  rw [sortedKeys, List.dedup_eq_self.mpr hnd, hle.insertionSort_eq]

/-- Summing and taking the last value over a one-row group reproduces the
row. -/
lemma combine_self (r : RawRecord) : combine (recKey r) [r] = r := by
  cases r
  simp [combine, recKey]

lemma groupRows_eq_nil {df : List RawRecord} {k : String × ℤ}
    (h : k ∉ df.map recKey) : groupRows df k = [] := by
  refine List.filter_eq_nil_iff.mpr fun r hr => ?_
  simp only [decide_eq_true_eq]
  exact fun he => h (he ▸ List.mem_map_of_mem recKey hr)

/-- Aggregation over a dataframe with pairwise-distinct keys rebuilds every
row from its own singleton group. -/
lemma map_combine_group : ∀ (df : List RawRecord), (df.map recKey).Nodup →
    (df.map recKey).map (fun k => combine k (groupRows df k)) = df := by
  intro df
  induction df with
  | nil => intro _; rfl
  | cons r t ih =>
    intro h
    rw [List.map_cons, List.nodup_cons] at h
    obtain ⟨hm, hnd⟩ := h
    rw [List.map_cons, List.map_cons]
    congr 1
    · have hgrp : groupRows (r :: t) (recKey r) = [r] := by
        rw [groupRows, List.filter_cons,
          show t.filter (fun s => decide (recKey s = recKey r)) =
            groupRows t (recKey r) from rfl, groupRows_eq_nil hm]
        simp
      rw [hgrp, combine_self]
    · have hrows : ∀ k ∈ t.map recKey, groupRows (r :: t) k = groupRows t k := by
        intro k hk
        rw [groupRows, List.filter_cons]
        have hne : ¬ (recKey r = k) := fun he => hm (he ▸ hk)
        simp only [decide_eq_true_eq, if_neg hne]
        rfl
      rw [List.map_congr_left fun k hk => by rw [hrows k hk]]
      exact ih hnd

/-- Aggregating a dataframe whose keys are strictly sorted (the shape
`aggregate` itself outputs) is the identity. -/
lemma aggregate_of_sorted {df : List RawRecord}
    (h : List.Sorted keyLT (df.map recKey)) : aggregate df = df := by
  rw [aggregate, sortedKeys_of_sorted h]
  exact map_combine_group df (h.imp fun hab => keyLT_ne hab)

/-- A duplicate same-day entry whose TRIMP (30) is below the outlier
threshold but whose daily sum (60) is not. -/
def dupRow : RawRecord :=
  { athlete := "A", date := 0, trimp := 30, movement := 100, anaerobic := 0,
    highIntensity := 0, acute := 10, chronic := 10, acwr := some 1,
    trainingStatus := "OK" }

/-- C3 counterexample: the pipeline does not discard sub-50 records before
aggregation.  Two same-day entries with TRIMP 30 each survive as an
aggregated row with TRIMP 60, whereas pre-filtering them away (what the
claim asserts happens) yields an empty output. -/
theorem filter_before_aggregation_false :
    ¬(normalizeData toMinutesOfSeconds [dupRow, dupRow] =
      normalizeData toMinutesOfSeconds
        (([dupRow, dupRow]).filter (fun r => 50 ≤ r.trimp ∧ 50 ≤ r.movement))) := by
  have hpre : ([dupRow, dupRow]).filter (fun r => 50 ≤ r.trimp ∧ 50 ≤ r.movement) = [] := by
    rw [List.filter_cons, List.filter_cons]
    norm_num [dupRow]
  rw [hpre]
  have hkeys : sortedKeys [dupRow, dupRow] = [("A", 0)] := by decide
  have hgrp : groupRows [dupRow, dupRow] ("A", 0) = [dupRow, dupRow] := by decide
  rw [normalizeData, normalizeData, aggregate, hkeys, List.map_cons, List.map_nil, hgrp]
  intro h
  have h2 := congrArg List.length h
  rw [clean_dataframe, List.map_cons, List.map_nil, List.filter_cons] at h2
  norm_num [combine, convertRecord, dupRow, clean_dataframe, aggregate, sortedKeys] at h2

/-- A raw single-entry row exactly at the TRIMP threshold. -/
def keptRow : RawRecord :=
  { athlete := "A", date := 0, trimp := 50, movement := 100, anaerobic := 600,
    highIntensity := 600, acute := 10, chronic := 10, acwr := some 1,
    trainingStatus := "OK" }

/-- The same row with TRIMP 49.9, below the threshold. -/
def droppedRow : RawRecord :=
  { athlete := "A", date := 0, trimp := 499/10, movement := 100, anaerobic := 600,
    highIntensity := 600, acute := 10, chronic := 10, acwr := some 1,
    trainingStatus := "OK" }

/-- C3 (amended): the sub-50 outlier filter is applied to the aggregated
rows, after grouping: every normalized output row has TRIMP ≥ 50 and
movement load ≥ 50, the boundary closed at 50 (an aggregated row with
TRIMP 49.9 is dropped, one with TRIMP exactly 50.0 is kept) — but individual
input records below 50 can still contribute to a kept aggregated row. -/
theorem filter_after_aggregation :
    (∀ (toMin : ℚ → ℚ) (df : List RawRecord) (r : CleanRecord),
        r ∈ normalizeData toMin df → 50 ≤ r.trimp ∧ 50 ≤ r.movement) ∧
    normalizeData toMinutesOfSeconds [droppedRow] = [] ∧
    normalizeData toMinutesOfSeconds [keptRow] =
      [convertRecord toMinutesOfSeconds keptRow] := by
  have hsingle : ∀ r : RawRecord, aggregate [r] = [r] := fun r =>
    aggregate_of_sorted (by simp [List.sorted_singleton])
  refine ⟨?_, ?_, ?_⟩
  · intro toMin df r hr
    rw [normalizeData, clean_dataframe] at hr
    have := List.of_mem_filter hr
    simpa using this
  · rw [normalizeData, hsingle, clean_dataframe, List.map_cons, List.map_nil,
      List.filter_cons]
    norm_num [convertRecord, droppedRow]
  · rw [normalizeData, hsingle, clean_dataframe, List.map_cons, List.map_nil,
      List.filter_cons]
    norm_num [convertRecord, keptRow]

/-- C3 witness: the single kept row at the boundary is a member of the
normalized output and satisfies both bounds. -/
theorem filter_after_aggregation_witness :
    50 ≤ (convertRecord toMinutesOfSeconds keptRow).trimp ∧
    50 ≤ (convertRecord toMinutesOfSeconds keptRow).movement :=
  filter_after_aggregation.1 toMinutesOfSeconds [keptRow]
    (convertRecord toMinutesOfSeconds keptRow)
    (by rw [filter_after_aggregation.2.2]; exact List.mem_singleton_self _)

/-- An already-normalized row: one entry for its athlete-day, filter-passing,
durations in minutes (60 minutes in each duration column). -/
def normalizedRow : CleanRecord :=
  { athlete := "A", date := 0, trimp := 100, movement := 100, anaerobicMin := 60,
    highIntensityMin := 60, acute := 10, chronic := 10, acwr := some 1,
    trainingStatus := "OK", hrMin := 120 }

/-- C8 counterexample: re-running the normalizer on an already-normalized
single-row dataset is not a no-op — `pd.to_timedelta` re-reads the
minute-valued duration columns as nanoseconds, shrinking them by a factor of
6·10^10. -/
theorem normalizer_not_idempotent :
    normalizeData toMinutesOfNumber ([normalizedRow].map cleanToRaw) ≠ [normalizedRow] := by
  have hagg : aggregate [cleanToRaw normalizedRow] = [cleanToRaw normalizedRow] :=
    aggregate_of_sorted (by simp [List.sorted_singleton])
  intro h
  rw [List.map_cons, List.map_nil, normalizeData, hagg, clean_dataframe,
    List.map_cons, List.map_nil, List.filter_cons] at h
  norm_num [convertRecord, cleanToRaw, toMinutesOfNumber, normalizedRow] at h

/-- C8 (amended): on an already-normalized dataset (strictly sorted
athlete-day keys, outlier filter already passed), re-running the normalizer
keeps every row in place and leaves every field unchanged except the two
duration columns and the derived `HR Min (+80%)`, which are rescaled by the
numeric-as-nanoseconds re-interpretation of `pd.to_timedelta`; full
idempotence fails exactly because of that rescaling. -/
theorem renormalize_rescales_time (ds : List CleanRecord)
    (hsorted : List.Sorted keyLT (ds.map (fun r => (r.athlete, r.date))))
    (hfilter : ∀ r ∈ ds, 50 ≤ r.trimp ∧ 50 ≤ r.movement) :
    normalizeData toMinutesOfNumber (ds.map cleanToRaw) = ds.map renormalizedRecord := by
  have hkeys : (ds.map cleanToRaw).map recKey = ds.map (fun r => (r.athlete, r.date)) := by
    rw [List.map_map]
    rfl
  have hagg : aggregate (ds.map cleanToRaw) = ds.map cleanToRaw :=
    aggregate_of_sorted (by rw [hkeys]; exact hsorted)
  rw [normalizeData, hagg, clean_dataframe, List.map_map]
  have : ds.map (convertRecord toMinutesOfNumber ∘ cleanToRaw) = ds.map renormalizedRecord := rfl
  rw [this]
  refine List.filter_eq_self.mpr fun c hc => ?_
  obtain ⟨r, hr, rfl⟩ := List.mem_map.mp hc
  have := hfilter r hr
  simp only [decide_eq_true_eq]
  exact this

/-- C8 witness: the amended statement applied to the concrete one-row
normalized dataset. -/
theorem renormalize_rescales_time_witness :
    normalizeData toMinutesOfNumber ([normalizedRow].map cleanToRaw) =
      [normalizedRow].map renormalizedRecord :=
  renormalize_rescales_time [normalizedRow]
    (by simp [List.sorted_singleton]) (by norm_num [normalizedRow])

/-! ## Wellness baselines and deviation colouring (`process_wellness.py`)

`process_wellness_data` anchors on the most recent date, displays the last
7 days and computes per-(athlete, metric) baselines (mean, sample std) over
the 14 days immediately before the display window.  `calculate_color_code`
classifies a displayed value against the baseline, `create_wellness_display`
fills the grid with the first matching record of each athlete-day. -/

/-- One wellness survey record: athlete name, calendar date (day number) and
the metric scores, looked up by metric name. -/
structure WellnessRecord where
  name : String
  date : ℤ
  value : String → ℚ

/-- `df['Date'].max()`: the most recent date in the dataset. -/
def mostRecentDate (df : List WellnessRecord) : ℤ :=
  ((df.map WellnessRecord.date).maximum).getD 0

/-- `display_start = most_recent_date - timedelta(days=6)`. -/
def displayStart (df : List WellnessRecord) : ℤ := mostRecentDate df - 6

/-- `calc_start = display_start - timedelta(days=14)`. -/
def calcStart (df : List WellnessRecord) : ℤ := displayStart df - 14

/-- `calc_data`: the baseline-window slice `calc_start ≤ date < display_start`. -/
def calcData (df : List WellnessRecord) : List WellnessRecord :=
  df.filter (fun r => calcStart df ≤ r.date ∧ r.date < displayStart df)

/-- `display_data`: the display-window slice `date ≥ display_start`. -/
def displayData (df : List WellnessRecord) : List WellnessRecord :=
  df.filter (fun r => displayStart df ≤ r.date)

/-- One athlete's values of one metric, in data order. -/
def metricValues (rows : List WellnessRecord) (athlete metric : String) : List ℚ :=
  (rows.filter (fun r => r.name = athlete)).map (fun r => r.value metric)

/-- The baseline mean of `process_wellness_data`:
`metric_data.mean() if not metric_data.empty else None`. -/
def baselineMean (df : List WellnessRecord) (athlete metric : String) : Option ℚ :=
  let xs := metricValues (calcData df) athlete metric
  if xs.isEmpty then none else some (listMean xs)

/-- The sample variance underlying `pandas.Series.std` (denominator n − 1). -/
def sampleVar (xs : List ℚ) : ℚ :=
  (xs.map (fun x => (x - listMean xs) ^ 2)).sum / ((xs.length : ℚ) - 1)

/-- The baseline standard deviation of `process_wellness_data`:
`metric_data.std() if len(metric_data) > 1 else None`. -/
noncomputable def baselineStd (df : List WellnessRecord) (athlete metric : String) :
    Option ℝ :=
  let xs := metricValues (calcData df) athlete metric
  if 1 < xs.length then some (Real.sqrt ((sampleVar xs : ℚ) : ℝ)) else none

/-- The four cell classes rendered by the dashboard: white (missing data /
no judgment), red (below baseline), green (above baseline), gray (within
baseline). -/
inductive CellColor
  | white
  | red
  | green
  | gray
deriving DecidableEq

/-- Embedding of `calculate_color_code(value, mean, std)`: white when the
value, mean or std is absent or std is zero; otherwise classify the z-score
with strict cutoffs at −1 and 1.  Generic over the ordered field carrying
the numbers so it can be used both with exact rational data and with the
real-valued standard deviation. -/
def calculate_color_code {α : Type} [LinearOrderedField α] [DecidableEq α]
    [∀ a b : α, Decidable (a < b)] (value mean std : Option α) : CellColor :=
  match value, mean, std with
  | some v, some m, some s =>
    if s = 0 then CellColor.white
    else
      let z := (v - m) / s
      if z < -1 then CellColor.red
      else if 1 < z then CellColor.green
      else CellColor.gray
  | _, _, _ => CellColor.white

/-- `style_wellness_display`'s per-cell call: colour a displayed value with
the athlete's stored baseline mean and std for that metric. -/
noncomputable def styleCellValue (df : List WellnessRecord) (v : Option ℝ)
    (athlete metric : String) : CellColor :=
  calculate_color_code v ((baselineMean df athlete metric).map (fun q => (q : ℝ)))
    (baselineStd df athlete metric)

/-- `create_wellness_display`'s cell fill: the first record of the given
athlete on the given date supplies every metric cell
(`athlete_data[metric].iloc[0]`); a missing athlete-day leaves the cell
empty (NaN). -/
def cellValue (display_rows : List WellnessRecord) (date : ℤ) (athlete metric : String) :
    Option ℚ :=
  match (display_rows.filter (fun r => r.date = date)).filter (fun r => r.name = athlete) with
  | [] => none
  | r :: _ => some (r.value metric)

/-- C5: with value, mean and a nonzero std all present, the classification
is by the z-score (v − m)/s with strict cutoffs: below −1 red
(below-baseline), above 1 green (above-baseline), otherwise gray
(within-baseline); in particular one standard deviation above the mean is
gray (z = 1 is not > 1) and mean + 1.0001·std is green. -/
theorem zscore_classification (v m s : ℚ) (hs : s ≠ 0) :
    ((v - m) / s < -1 →
      calculate_color_code (some v) (some m) (some s) = CellColor.red) ∧
    (1 < (v - m) / s →
      calculate_color_code (some v) (some m) (some s) = CellColor.green) ∧
    (-1 ≤ (v - m) / s → (v - m) / s ≤ 1 →
      calculate_color_code (some v) (some m) (some s) = CellColor.gray) ∧
    (0 < s →
      calculate_color_code (some (m + s)) (some m) (some s) = CellColor.gray) ∧
    (0 < s →
      calculate_color_code (some (m + 10001/10000 * s)) (some m) (some s) =
        CellColor.green) := by
  refine ⟨?_, ?_, ?_, ?_, ?_⟩
  · intro h
    simp [calculate_color_code, hs, h]
  · intro h
    have h1 : ¬ (v - m) / s < -1 := by linarith
    simp [calculate_color_code, hs, h1, h]
  · intro h1 h2
    have hn1 : ¬ (v - m) / s < -1 := not_lt.mpr h1
    have hn2 : ¬ 1 < (v - m) / s := not_lt.mpr h2
    simp [calculate_color_code, hs, hn1, hn2]
  · intro hpos
    have hz : (m + s - m) / s = 1 := by
      field_simp
    simp [calculate_color_code, hs, hz]
  · intro hpos
    have hz : (m + 10001/10000 * s - m) / s = 10001/10000 := by
      field_simp
      ring
    simp only [calculate_color_code, hs, hz, if_neg hs]
    norm_num

/-- C5 witness: value 150 against mean 100, std 25 has z-score 2 and is
classified green (above baseline). -/
theorem zscore_classification_witness :
    calculate_color_code (some (150:ℚ)) (some 100) (some 25) = CellColor.green :=
  (zscore_classification 150 100 25 (by norm_num)).2.1 (by norm_num)

/-- An athlete with a constant baseline (three records of value 100 in the
baseline window) and a displayed value of 150 on the most recent day. -/
def constantBaselineDf : List WellnessRecord :=
  [⟨"A", 1, fun _ => 100⟩, ⟨"A", 2, fun _ => 100⟩, ⟨"A", 3, fun _ => 100⟩,
   ⟨"A", 20, fun _ => 150⟩]

/-- C6: an absent value, absent mean, absent std, or a zero std each yield
the white (neutral/no-data) class; in particular the athlete with constant
baseline values 100,100,100 (mean 100, sample std 0) and displayed value
150 is classified white through the std = 0 guard, not green. -/
theorem neutral_guards_and_zero_std :
    (∀ mean std : Option ℚ, calculate_color_code none mean std = CellColor.white) ∧
    (∀ v std : Option ℚ, calculate_color_code v none std = CellColor.white) ∧
    (∀ v mean : Option ℚ,
      calculate_color_code v mean none = CellColor.white) ∧
    (∀ v mean : ℚ,
      calculate_color_code (some v) (some mean) (some (0:ℚ)) = CellColor.white) ∧
    baselineStd constantBaselineDf "A" "Mood" = some 0 ∧
    styleCellValue constantBaselineDf (some 150) "A" "Mood" = CellColor.white := by
  have hxs : metricValues (calcData constantBaselineDf) "A" "Mood" = [100, 100, 100] := by
    decide
  have hvar : sampleVar [100, 100, 100] = 0 := by
    norm_num [sampleVar, listMean]
  have hstd : baselineStd constantBaselineDf "A" "Mood" = some 0 := by
    rw [baselineStd]
    rw [hxs, hvar]
    norm_num
  refine ⟨?_, ?_, ?_, ?_, hstd, ?_⟩
  · intro mean std
    cases mean <;> cases std <;> rfl
  · intro v std
    cases v <;> cases std <;> rfl
  · intro v mean
    cases v <;> cases mean <;> rfl
  · intro v mean
    simp [calculate_color_code]
  · rw [styleCellValue, hstd]
    cases hm : (baselineMean constantBaselineDf "A" "Mood").map (fun q => (q : ℝ)) with
    | none => rfl
    | some m => simp [calculate_color_code]

/-- Pointwise-related datasets (same names, same dates, values equal outside
the display window) have the same date column. -/
lemma forall2_map_date {D : ℤ} {df₁ df₂ : List WellnessRecord}
    (h : List.Forall₂ (fun r₁ r₂ => r₁.name = r₂.name ∧ r₁.date = r₂.date ∧
          (r₁.date < D → r₁.value = r₂.value)) df₁ df₂) :
    df₁.map WellnessRecord.date = df₂.map WellnessRecord.date := by
  induction h with
  | nil => rfl
  | cons hr _ ih => simp [hr.2.1, ih]

/-- Prepending a record to the rows either prepends its metric value or
leaves the metric list unchanged, depending on the athlete filter. -/
lemma metricValues_cons (r : WellnessRecord) (rows : List WellnessRecord)
    (athlete metric : String) :
    metricValues (r :: rows) athlete metric =
      if r.name = athlete then r.value metric :: metricValues rows athlete metric
      else metricValues rows athlete metric := by
  by_cases h : r.name = athlete <;> simp [metricValues, List.filter_cons, h]

/-- Pointwise-related datasets produce identical per-athlete metric lists on
any window that lies entirely below the display start. -/
lemma forall2_metricValues {D lo : ℤ} {athlete metric : String} :
    ∀ {df₁ df₂ : List WellnessRecord},
    List.Forall₂ (fun r₁ r₂ => r₁.name = r₂.name ∧ r₁.date = r₂.date ∧
        (r₁.date < D → r₁.value = r₂.value)) df₁ df₂ →
    metricValues (df₁.filter (fun r => lo ≤ r.date ∧ r.date < D)) athlete metric =
      metricValues (df₂.filter (fun r => lo ≤ r.date ∧ r.date < D)) athlete metric := by
  intro df₁ df₂ h
  induction h with
  | nil => rfl
  | @cons r₁ r₂ t₁ t₂ hr _ ih =>
    obtain ⟨hn, hd, hv⟩ := hr
    rw [List.filter_cons, List.filter_cons, ← hd]
    by_cases hw : lo ≤ r₁.date ∧ r₁.date < D
    · rw [if_pos (decide_eq_true hw), if_pos (decide_eq_true hw)]
      rw [metricValues_cons, metricValues_cons, ← hn, congrFun (hv hw.2) metric, ih]
    · rw [if_neg (fun hc => hw (of_decide_eq_true hc)),
        if_neg (fun hc => hw (of_decide_eq_true hc))]
      exact ih

/-- C7: the computed baseline mean and std of every (athlete, metric) pair
depend only on records dated strictly before the display window: two
datasets that agree on names and dates everywhere and on metric values
outside the display window produce identical baselines. -/
theorem baseline_isolation (df₁ df₂ : List WellnessRecord)
    (h : List.Forall₂ (fun r₁ r₂ => r₁.name = r₂.name ∧ r₁.date = r₂.date ∧
          (r₁.date < displayStart df₁ → r₁.value = r₂.value)) df₁ df₂) :
    ∀ athlete metric,
      baselineMean df₁ athlete metric = baselineMean df₂ athlete metric ∧
      baselineStd df₁ athlete metric = baselineStd df₂ athlete metric := by
  have hdates := forall2_map_date h
  have hms : mostRecentDate df₁ = mostRecentDate df₂ := by
    rw [mostRecentDate, mostRecentDate, hdates]
  have hds : displayStart df₁ = displayStart df₂ := by
    rw [displayStart, displayStart, hms]
  have hcs : calcStart df₁ = calcStart df₂ := by
    rw [calcStart, calcStart, hds]
  intro athlete metric
  have hxs : metricValues (calcData df₁) athlete metric =
      metricValues (calcData df₂) athlete metric := by
    rw [calcData, calcData, ← hds, ← hcs]
    exact forall2_metricValues h
  exact ⟨by rw [baselineMean, baselineMean, hxs], by rw [baselineStd, baselineStd, hxs]⟩

/-- C7 witness: changing the displayed value on the most recent day (150
instead of 9) leaves the baseline of the out-of-window record untouched. -/
theorem baseline_isolation_witness :
    baselineMean [⟨"A", 0, fun _ => 5⟩, ⟨"A", 20, fun _ => 9⟩] "A" "Mood" =
      baselineMean [⟨"A", 0, fun _ => 5⟩, ⟨"A", 20, fun _ => 150⟩] "A" "Mood" ∧
    baselineStd [⟨"A", 0, fun _ => 5⟩, ⟨"A", 20, fun _ => 9⟩] "A" "Mood" =
      baselineStd [⟨"A", 0, fun _ => 5⟩, ⟨"A", 20, fun _ => 150⟩] "A" "Mood" :=
  baseline_isolation [⟨"A", 0, fun _ => 5⟩, ⟨"A", 20, fun _ => 9⟩]
    [⟨"A", 0, fun _ => 5⟩, ⟨"A", 20, fun _ => 150⟩]
    (List.Forall₂.cons ⟨rfl, rfl, fun _ => rfl⟩
      (List.Forall₂.cons ⟨rfl, rfl, fun hlt => absurd hlt (by decide)⟩
        List.Forall₂.nil))
    "A" "Mood"

/-- A record that does not match the (date, athlete) pair of a cell does not
affect that cell. -/
lemma cellValue_cons_skip (s : WellnessRecord) (rows : List WellnessRecord)
    (date : ℤ) (athlete metric : String) (h : ¬(s.date = date ∧ s.name = athlete)) :
    cellValue (s :: rows) date athlete metric = cellValue rows date athlete metric := by
  by_cases hd : s.date = date
  · have hn : ¬ s.name = athlete := fun hn => h ⟨hd, hn⟩
    simp [cellValue, List.filter_cons, hd, hn]
  · simp [cellValue, List.filter_cons, hd]

/-- A matching record at the head of the data supplies the cell value,
whatever comes after it. -/
lemma cellValue_cons_hit (s : WellnessRecord) (rows : List WellnessRecord)
    (date : ℤ) (athlete metric : String) (hd : s.date = date) (hn : s.name = athlete) :
    cellValue (s :: rows) date athlete metric = some (s.value metric) := by
  simp [cellValue, List.filter_cons, hd, hn]

/-- C10: in the wellness display grid, the cell of an (athlete, date) pair
holds the value of the first matching record in data order; any later
same-day records of the same athlete are silently ignored, not
aggregated. -/
theorem first_record_wins (before after : List WellnessRecord) (r : WellnessRecord)
    (date : ℤ) (athlete metric : String)
    (hbefore : ∀ s ∈ before, ¬(s.date = date ∧ s.name = athlete))
    (hdate : r.date = date) (hname : r.name = athlete) :
    cellValue (before ++ r :: after) date athlete metric = some (r.value metric) := by
  induction before with
  | nil => exact cellValue_cons_hit r after date athlete metric hdate hname
  | cons s t ih =>
    rw [List.cons_append,
      cellValue_cons_skip s (t ++ r :: after) date athlete metric
        (hbefore s (List.mem_cons_self s t))]
    exact ih fun x hx => hbefore x (List.mem_cons_of_mem s hx)

/-- C10 witness: with a non-matching record first and two same-day records
of athlete A (values 7 then 9), the cell shows 7, the first match. -/
theorem first_record_wins_witness :
    cellValue [⟨"B", 5, fun _ => 1⟩, ⟨"A", 5, fun _ => 7⟩, ⟨"A", 5, fun _ => 9⟩]
      5 "A" "Mood" = some 7 :=
  first_record_wins [⟨"B", 5, fun _ => 1⟩] [⟨"A", 5, fun _ => 9⟩]
    ⟨"A", 5, fun _ => 7⟩ 5 "A" "Mood"
    (by
      intro s hs
      rw [List.mem_singleton] at hs
      subst hs
      decide)
    rfl rfl

/-! ## Required-column validation (`clean_dataframe` column selection)

`clean_dataframe` starts with `df[columns_to_keep]`; pandas raises a
`KeyError` naming every missing column when one of them is absent, `app.py`
catches it and shows the message, and no normalized result is produced.
The selection is modelled as a fallible operation on a column-labelled
frame whose error value carries the missing column names. -/

/-- A raw dataframe: its column labels and its rows (a row assigns a value
to every column label). -/
structure Frame where
  cols : List String
  rows : List (String → ℚ)

/-- The ten columns `clean_dataframe` requires. -/
def columns_to_keep : List String :=
  ["Athlete name", "Start date (dd.mm.yyyy)", "TRIMP (Index)", "Movement load",
   "Anaerobic threshold zone (hh:mm:ss)", "High intensity training (hh:mm:ss)",
   "Acute Training Load", "Chronic Training Load", "ACWR", "Training Status"]

/-- `df[cs]`: succeeds with the frame restricted to the requested columns
when they are all present, and otherwise fails carrying exactly the missing
column names (the names pandas puts in the `KeyError` message). -/
def selectColumns (df : Frame) (cs : List String) : Except (List String) Frame :=
  let missing := cs.filter (fun c => ¬ c ∈ df.cols)
  if missing.isEmpty then Except.ok { cols := cs, rows := df.rows }
  else Except.error missing

/-- C9: selecting the required columns fails — aborting normalization with
no partial result, the error listing every missing required column — exactly
when some required column is absent; when all ten are present it succeeds. -/
theorem missing_columns_error (df : Frame) :
    ((∀ c ∈ columns_to_keep, c ∈ df.cols) →
      selectColumns df columns_to_keep =
        Except.ok { cols := columns_to_keep, rows := df.rows }) ∧
    (∀ c ∈ columns_to_keep, c ∉ df.cols →
      selectColumns df columns_to_keep =
        Except.error (columns_to_keep.filter (fun c => ¬ c ∈ df.cols)) ∧
      c ∈ columns_to_keep.filter (fun c => ¬ c ∈ df.cols)) := by
  constructor
  · intro hall
    have hnil : columns_to_keep.filter (fun c => ¬ c ∈ df.cols) = [] :=
      List.filter_eq_nil_iff.mpr fun c hc => by
        simp [hall c hc]
    rw [selectColumns, hnil]
    rfl
  · intro c hc hnc
    have hmem : c ∈ columns_to_keep.filter (fun c => ¬ c ∈ df.cols) :=
      List.mem_filter.mpr ⟨hc, by simpa using hnc⟩
    refine ⟨?_, hmem⟩
    rw [selectColumns]
    have : ¬ (columns_to_keep.filter (fun c => ¬ c ∈ df.cols)).isEmpty = true := by
      intro he
      rw [List.isEmpty_iff] at he
      rw [he] at hmem
      exact List.not_mem_nil c hmem
    rw [if_neg this]

/-- C9 witness: a frame having only the athlete-name column is rejected,
with "ACWR" among the reported missing columns. -/
theorem missing_columns_error_witness :
    selectColumns ⟨["Athlete name"], []⟩ columns_to_keep =
      Except.error (columns_to_keep.filter
        (fun c => ¬ c ∈ (⟨["Athlete name"], []⟩ : Frame).cols)) ∧
    "ACWR" ∈ columns_to_keep.filter
      (fun c => ¬ c ∈ (⟨["Athlete name"], []⟩ : Frame).cols) :=
  (missing_columns_error ⟨["Athlete name"], []⟩).2 "ACWR" (by decide) (by decide)
